import Mathlib

/-!
Shallow embedding of src/chatterino_logs.py (twitch-sentiment).

The program parses a directory of chat-log files named
  <channel>-<YYYY-MM-DD>.log
into (timestamp, user, message) records.  Python regular expressions are
embedded as character-level matchers over List Char, each derived from the
compiled pattern it models; Python exceptions become explicit error values
(an Except result), and the pandas DataFrame of rows becomes a List of
records.  All text is modelled at the ASCII level: the character classes
below cover the ASCII portion of Python's s and w regex classes, which is
the range exercised by the log format.

Modelling notes, applied consistently:
  - re.match with a "$"-anchored pattern is modelled as a full match of the
    line.  Python's "$" would also match just before a single trailing
    newline, but every line reaching these patterns has had its trailing
    whitespace (including any newline) removed by rstrip, so the two
    readings agree on all reachable inputs.  The "." class excludes the
    newline character, as in Python without DOTALL.
  - datetime.datetime.strptime is modelled by validators that accept
    exactly the in-range values: for "%H:%M:%S" hour 0-23, minute 0-59,
    second 0-59 (CPython's regex admits leap seconds 60/61 but the
    datetime constructor then rejects them, so they raise ValueError all
    the same); for "%Y-%m-%d" year 1-9999, month 1-12, day 1-days in the
    month.  An out-of-range field raises ValueError, modelled as the
    distinct error value PyError.valueError.
  - Python exceptions raised and caught inside the program are the
    constructors of PyError; pandas.concat on an empty list of frames
    raises ValueError ("No objects to concatenate"), modelled as the
    separate constructor pandasEmptyConcat so that theorems can tell the
    two ValueError sites apart (both are the same Python class).
-/

/-- ASCII fragment of Python's regex whitespace class (the s class) and of
str.rstrip's default strip set: space, tab, newline, carriage return, form
feed, vertical tab. -/
def pyIsSpace (c : Char) : Bool :=
  c = ' ' || c = '\t' || c = '\n' || c = '\x0d' || c = '\x0c' || c = '\x0b'

/-- ASCII fragment of Python's regex word class (the w class): letters,
digits, underscore. -/
def pyIsWord (c : Char) : Bool :=
  c.isAlphanum || c = '_'

/-- Numeric value of an ASCII digit character. -/
def digitVal (c : Char) : Nat := c.toNat - 48

/-- Wall-clock time of day, the result of parsing HH:MM:SS. -/
structure Time where
  hour : Nat
  minute : Nat
  second : Nat
deriving DecidableEq

/-- Calendar date, the result of parsing YYYY-MM-DD from a file name. -/
structure Date where
  year : Nat
  month : Nat
  day : Nat
deriving DecidableEq

/-- datetime.datetime.combine(date, time): a date paired with a time. -/
structure DateTime where
  date : Date
  time : Time
deriving DecidableEq

/-- One row of the resulting DataFrame: columns ts, user, msg.  Also the
_LineComponents named tuple of the source. -/
structure ChatRecord where
  ts : DateTime
  user : String
  msg : String
deriving DecidableEq

/-- The Python exceptions that cross function boundaries in the program.
fileNameFormat is FileNameFormatException; valueError is ValueError as
raised by datetime.strptime on an out-of-range date or time;
pandasEmptyConcat is the ValueError raised by pandas.concat on an empty
list of frames. -/
inductive PyError where
  | fileNameFormat
  | valueError
  | pandasEmptyConcat
deriving DecidableEq

deriving instance DecidableEq for Except

/-- Outcome of _parse_line on one (already rstripped) line.  message is a
normal return; nonMessage is NonMessageLineException (caught and ignored by
parse_log); parseError is ParseLineException (caught and reported by
parse_log); valueError is the ValueError escaping from
datetime.strptime("%H:%M:%S") on an out-of-range time, which parse_log
does not catch. -/
inductive LineOutcome where
  | message : ChatRecord → LineOutcome
  | nonMessage : LineOutcome
  | parseError : LineOutcome
  | valueError : LineOutcome
deriving DecidableEq

/-- Gregorian leap-year test, as in datetime. -/
def isLeapYear (y : Nat) : Bool :=
  (y % 4 = 0 && y % 100 ≠ 0) || y % 400 = 0

/-- Number of days in a month, as validated by datetime.date. -/
def daysInMonth (y m : Nat) : Nat :=
  if m = 2 then (if isLeapYear y then 29 else 28)
  else if m = 4 || m = 6 || m = 9 || m = 11 then 30
  else 31

/-- The calendar dates datetime.date accepts: month 1-12, day within the
month, year at least datetime.MINYEAR = 1. -/
def validDate (d : Date) : Prop :=
  1 ≤ d.year ∧ 1 ≤ d.month ∧ d.month ≤ 12 ∧ 1 ≤ d.day ∧ d.day ≤ daysInMonth d.year d.month

instance (d : Date) : Decidable (validDate d) := by
  unfold validDate; infer_instance

/-- datetime.datetime.strptime(timeStr, "%H:%M:%S").time() on the captured
group of the log-line pattern (shape dd:dd:dd).  Returns none exactly when
Python raises ValueError: hour above 23, minute above 59, or second above
59 (60 and 61 pass CPython's %S regex but are then rejected by the
datetime constructor). -/
def strptime_hms (g : List Char) : Option Time :=
  match g with
  | [h1, h2, c1, m1, m2, c2, s1, s2] =>
    if c1 = ':' ∧ c2 = ':' ∧ h1.isDigit ∧ h2.isDigit ∧ m1.isDigit ∧ m2.isDigit
        ∧ s1.isDigit ∧ s2.isDigit then
      let h := 10 * digitVal h1 + digitVal h2
      let m := 10 * digitVal m1 + digitVal m2
      let s := 10 * digitVal s1 + digitVal s2
      if h ≤ 23 ∧ m ≤ 59 ∧ s ≤ 59 then some ⟨h, m, s⟩ else none
    else none
  | _ => none

/-- datetime.datetime.strptime(dateStr, "%Y-%m-%d").date() on the captured
group of the file-name pattern (shape dddd-dd-dd).  Returns none exactly
when Python raises ValueError: month outside 1-12, day outside the month's
range, or year 0 (below datetime.MINYEAR; four digits cap the year at
9999). -/
def strptime_ymd (g : List Char) : Option Date :=
  match g with
  | [y1, y2, y3, y4, c1, m1, m2, c2, d1, d2] =>
    if c1 = '-' ∧ c2 = '-' ∧ y1.isDigit ∧ y2.isDigit ∧ y3.isDigit ∧ y4.isDigit
        ∧ m1.isDigit ∧ m2.isDigit ∧ d1.isDigit ∧ d2.isDigit then
      let y := 1000 * digitVal y1 + 100 * digitVal y2 + 10 * digitVal y3 + digitVal y4
      let m := 10 * digitVal m1 + digitVal m2
      let d := 10 * digitVal d1 + digitVal d2
      if 1 ≤ y ∧ 1 ≤ m ∧ m ≤ 12 ∧ 1 ≤ d ∧ d ≤ daysInMonth y m then some ⟨y, m, d⟩
      else none
    else none
  | _ => none

/-- The tail of _LOG_LINE_PATTERN after the two whitespace characters:
(w+):s(.*)$ — a greedy nonempty run of word characters, a colon, one
whitespace character, then the rest of the line as the message.  The colon
is not a word character, so the greedy run is exactly the maximal word-
character run; the final group must reach the end of the line without
crossing a newline. -/
def matchUserRest (rest : List Char) : Option (List Char × List Char) :=
  match rest.dropWhile pyIsWord with
  | c :: sep :: text =>
    if c = ':' ∧ rest.takeWhile pyIsWord ≠ [] ∧ pyIsSpace sep
        ∧ text.all (fun ch => ch ≠ '\n') then
      some (rest.takeWhile pyIsWord, text)
    else none
  | _ => none

/-- _LOG_LINE_PATTERN = r"^\[(\d{2}:\d{2}:\d{2})\]\s{2}(\w+):\s(.*)$" as a
matcher.  On success returns (group 1, group 2, group 3): the HH:MM:SS
text, the username, the message. -/
def matchLogLine (line : List Char) : Option (List Char × List Char × List Char) :=
  match line with
  | lb :: h1 :: h2 :: c1 :: m1 :: m2 :: c2 :: s1 :: s2 :: rb :: w1 :: w2 :: rest =>
    if lb = '[' ∧ c1 = ':' ∧ c2 = ':' ∧ rb = ']'
        ∧ h1.isDigit ∧ h2.isDigit ∧ m1.isDigit ∧ m2.isDigit ∧ s1.isDigit ∧ s2.isDigit
        ∧ pyIsSpace w1 ∧ pyIsSpace w2 then
      match matchUserRest rest with
      | some (user, msg) => some ([h1, h2, ':', m1, m2, ':', s1, s2], user, msg)
      | none => none
    else none
  | _ => none

/-- _ANNOUNCEMENT_LINE_PATTERN = r"^\[[:0-9]+\](\s{1})\w+.*$" as a matcher:
an opening bracket, a nonempty greedy run of colons and digits, a closing
bracket (not in the class, so the run is maximal), exactly one whitespace
character, at least one word character, then anything up to the end of the
line without a newline. -/
def matchAnnouncement (line : List Char) : Bool :=
  match line with
  | lb :: rest =>
    if lb = '[' then
      match rest.dropWhile (fun c => c = ':' || c.isDigit) with
      | rb :: w :: c :: tail =>
        decide (rb = ']') && !(rest.takeWhile (fun c => c = ':' || c.isDigit)).isEmpty
          && pyIsSpace w && pyIsWord c && tail.all (fun ch => ch ≠ '\n')
      | _ => false
    else false
  | [] => false

/-- _COMMENT_LINE_PATTERN = r"^(#).*$" as a matcher: the line starts with a
hash and contains no newline after it. -/
def matchComment (line : List Char) : Bool :=
  match line with
  | c :: rest => decide (c = '#') && rest.all (fun ch => ch ≠ '\n')
  | [] => false

/-- _parse_line(date, line): try the log-line pattern; on a match, parse
the captured time with strptime (an out-of-range time raises ValueError);
otherwise try the announcement and comment patterns, raising
NonMessageLineException on either, and ParseLineException when nothing
matches. -/
def _parse_line (date : Date) (line : List Char) : LineOutcome :=
  match matchLogLine line with
  | some (timeStr, user, msg) =>
    match strptime_hms timeStr with
    | some t => .message ⟨⟨date, t⟩, ⟨user⟩, ⟨msg⟩⟩
    | none => .valueError
  | none =>
    if matchAnnouncement line then .nonMessage
    else if matchComment line then .nonMessage
    else .parseError

/-- str.rstrip() with no argument: remove all trailing whitespace
characters (including the line terminator). -/
def rstrip (line : List Char) : List Char :=
  (line.reverse.dropWhile pyIsSpace).reverse

/-- _FILE_NAME_PATTERN = r"^(.+?)-(\d{4}-\d{2}-\d{2})\.log$" as a matcher
returning (group 1, group 2).  Everything after group 1 has fixed length
15 (one dash, ten date characters, ".log"), so the split point of any
match is forced to be at length - 15 and the non-greedy modifier cannot
change it; group 1 must be nonempty and, being a run of ".", may not
contain a newline. -/
def matchFileName (name : List Char) : Option (List Char × List Char) :=
  if name.length ≥ 16 then
    let stem := name.take (name.length - 15)
    let tail := name.drop (name.length - 15)
    match tail with
    | dash :: y1 :: y2 :: y3 :: y4 :: d1 :: m1 :: m2 :: d2 :: dd1 :: dd2 :: dot :: el :: oh :: ge :: [] =>
      if dash = '-' ∧ d1 = '-' ∧ d2 = '-' ∧ dot = '.' ∧ el = 'l' ∧ oh = 'o' ∧ ge = 'g'
          ∧ y1.isDigit ∧ y2.isDigit ∧ y3.isDigit ∧ y4.isDigit
          ∧ m1.isDigit ∧ m2.isDigit ∧ dd1.isDigit ∧ dd2.isDigit
          ∧ stem.all (fun ch => ch ≠ '\n') then
        some (stem, [y1, y2, y3, y4, '-', m1, m2, '-', dd1, dd2])
      else none
    | _ => none
  else none

/-- _file_name_components(path): match the base name against the file-name
pattern, raising FileNameFormatException when it does not match, then
parse the date group with strptime (an invalid calendar date raises
ValueError).  The model receives the base name directly: parse_from_dir
joins a fixed directory onto each entry name and os.path.basename
recovers the entry name. -/
def _file_name_components (name : String) : Except PyError (String × Date) :=
  match matchFileName name.data with
  | none => .error .fileNameFormat
  | some (stem, dateStr) =>
    match strptime_ymd dateStr with
    | none => .error .valueError
    | some d => .ok (⟨stem⟩, d)

/-- The loop body of parse_log over the file's lines: each raw line is
rstripped and classified; message rows are appended in order, non-message
and parse-error lines are skipped (the latter after a diagnostic print),
and a ValueError from the time parse is not caught, aborting the file. -/
def parse_log_rows (date : Date) : List (List Char) → Except PyError (List ChatRecord)
  | [] => .ok []
  | l :: ls =>
    match _parse_line date (rstrip l) with
    | .message r =>
      match parse_log_rows date ls with
      | .ok rs => .ok (r :: rs)
      | .error e => .error e
    | .nonMessage => parse_log_rows date ls
    | .parseError => parse_log_rows date ls
    | .valueError => .error .valueError

/-- parse_log(path): derive the file's date from its name (propagating
FileNameFormatException and ValueError), then parse the lines in order.
A file is modelled as its base name paired with its raw lines. -/
def parse_log (file : String × List (List Char)) : Except PyError (List ChatRecord) :=
  match _file_name_components file.1 with
  | .error e => .error e
  | .ok (_, date) => parse_log_rows date file.2

/-- Code-point lexicographic comparison of text, the order Python's
sorted() uses on str. -/
def listCharLe : List Char → List Char → Bool
  | [], _ => true
  | _ :: _, [] => false
  | a :: as, b :: bs =>
    if a < b then true
    else if b < a then false
    else listCharLe as bs

/-- A directory entry in the model: base file name paired with the file's
raw lines.  The os.path.isfile filter is modelled by the input listing
only regular files. -/
def FileEntry : Type := String × List (List Char)

/-- Ordering of directory entries by file name.  sorted() in the source
sorts the joined paths, which share the directory prefix, so it orders
entries exactly by their base names. -/
def fileLe (a b : FileEntry) : Prop := listCharLe a.1.data b.1.data = true

instance : DecidableRel fileLe := fun a b => by
  unfold fileLe; infer_instance

/-- sorted(...) over the directory listing. -/
def sortFiles (files : List FileEntry) : List FileEntry :=
  List.insertionSort fileLe files

/-- The for-loop of parse_from_dir: parse each file in sorted order,
catching FileNameFormatException (diagnostic and skip) and accumulating
each successful DataFrame; any other exception (the ValueError from an
invalid date or time) propagates. -/
def parse_from_dir_frames : List FileEntry → List (List ChatRecord) →
    Except PyError (List (List ChatRecord))
  | [], frames => .ok frames
  | f :: fs, frames =>
    match parse_log f with
    | .ok df => parse_from_dir_frames fs (frames ++ [df])
    | .error .fileNameFormat => parse_from_dir_frames fs frames
    | .error e => .error e

/-- parse_from_dir(path): sort the regular files of the directory by name,
parse each (skipping files whose names do not conform), then concatenate
the accumulated frames with pandas.concat, which raises ValueError when
the list of frames is empty. -/
def parse_from_dir (files : List FileEntry) : Except PyError (List ChatRecord) :=
  match parse_from_dir_frames (sortFiles files) [] with
  | .ok frames =>
    if frames.isEmpty then .error .pandasEmptyConcat else .ok frames.flatten
  | .error e => .error e

/-- Modelled from the spec: the repository has no date printer, so the
round-trip direction "date printed back as YYYY-MM-DD" of the spec is
rendered here as zero-padded four-two-two digit formatting. -/
def pad2 (n : Nat) : List Char :=
  [Char.ofNat (48 + n / 10 % 10), Char.ofNat (48 + n % 10)]

/-- Modelled from the spec: four-digit zero-padded component of the
YYYY-MM-DD rendering. -/
def pad4 (n : Nat) : List Char :=
  [Char.ofNat (48 + n / 1000 % 10), Char.ofNat (48 + n / 100 % 10),
   Char.ofNat (48 + n / 10 % 10), Char.ofNat (48 + n % 10)]

/-- Modelled from the spec: print a date back as YYYY-MM-DD. -/
def date_iso (d : Date) : List Char :=
  pad4 d.year ++ '-' :: pad2 d.month ++ '-' :: pad2 d.day

/-- The record a single raw line contributes to its file's DataFrame, if
any: message lines contribute their row, all other outcomes contribute
nothing (assuming the file parse survives). -/
def lineRecord (date : Date) (l : List Char) : Option ChatRecord :=
  match _parse_line date (rstrip l) with
  | .message r => some r
  | _ => none

/-- The frame a directory entry contributes to the aggregate, if any: the
file's records when it parses, nothing when its name is rejected. -/
def fileFrame (f : FileEntry) : Option (List ChatRecord) :=
  match parse_log f with
  | .ok df => some df
  | .error _ => none

/-! ## Character-class facts -/

theorem char_digit_bounds (c : Char) (h : c.isDigit = true) :
    48 ≤ c.toNat ∧ c.toNat ≤ 57 := by
  simp only [Char.isDigit, ge_iff_le, Bool.and_eq_true, decide_eq_true_eq] at h
  obtain ⟨h1, h2⟩ := h
  rw [UInt32.le_def, BitVec.le_def] at h1 h2
  exact ⟨h1, h2⟩

theorem char_ofNat_digit (c : Char) (h : c.isDigit = true) :
    Char.ofNat (48 + digitVal c) = c := by
  obtain ⟨h1, _⟩ := char_digit_bounds c h
  have e : 48 + digitVal c = c.toNat := by unfold digitVal; omega
  rw [e, Char.ofNat_toNat]

theorem pyIsSpace_not_word (c : Char) (h : pyIsSpace c = true) : pyIsWord c = false := by
  simp only [pyIsSpace, Bool.or_eq_true, decide_eq_true_eq] at h
  rcases h with ((((h | h) | h) | h) | h) | h <;> subst h <;> decide

theorem pyIsWord_not_space (c : Char) (h : pyIsWord c = true) : pyIsSpace c = false := by
  cases hs : pyIsSpace c
  · rfl
  · rw [pyIsSpace_not_word c hs] at h
    cases h

/-! ## takeWhile and dropWhile over a delimited run -/

theorem takeWhile_append_stop (p : Char → Bool) (u : List Char) (x : Char) (tail : List Char)
    (hu : ∀ c ∈ u, p c = true) (hx : p x = false) :
    (u ++ x :: tail).takeWhile p = u ∧ (u ++ x :: tail).dropWhile p = x :: tail := by
  induction u with
  | nil => simp [List.takeWhile_cons, List.dropWhile_cons, hx]
  | cons a as ih =>
    have ha : p a = true := hu a (by simp)
    have ihh := ih (fun c hc => hu c (by simp [hc]))
    simp [List.takeWhile_cons, List.dropWhile_cons, ha, ihh.1, ihh.2]

theorem dropWhile_append_all (p : Char → Bool) (a b : List Char)
    (ha : ∀ c ∈ a, p c = true) :
    (a ++ b).dropWhile p = b.dropWhile p := by
  induction a with
  | nil => simp
  | cons x xs ih =>
    have hx : p x = true := ha x (by simp)
    simp [List.dropWhile_cons, hx, ih (fun c hc => ha c (by simp [hc]))]

theorem head?_dropWhile_false (p : Char → Bool) (l : List Char) (a : Char)
    (h : (l.dropWhile p).head? = some a) : p a = false := by
  induction l with
  | nil => cases h
  | cons x xs ih =>
    rw [List.dropWhile_cons] at h
    by_cases hp : p x = true
    · rw [if_pos hp] at h
      exact ih h
    · rw [if_neg hp] at h
      injection h with h
      subst h
      exact Bool.not_eq_true _ ▸ hp

/-! ## rstrip facts -/

theorem rstrip_getLast_not_space (l : List Char) (c : Char)
    (h : (rstrip l).getLast? = some c) : pyIsSpace c = false := by
  unfold rstrip at h
  rw [List.getLast?_reverse] at h
  exact head?_dropWhile_false pyIsSpace l.reverse c h

theorem rstrip_append_ws (l ws : List Char) (h : ∀ c ∈ ws, pyIsSpace c = true) :
    rstrip (l ++ ws) = rstrip l := by
  unfold rstrip
  rw [List.reverse_append,
    dropWhile_append_all pyIsSpace ws.reverse l.reverse
      (fun c hc => h c (List.mem_reverse.mp hc))]

/-! ## Construction lemmas for the log-line pattern -/

theorem matchUserRest_construct (user : List Char) (sep : Char) (msg : List Char)
    (hne : user ≠ []) (hw : ∀ c ∈ user, pyIsWord c = true)
    (hsep : pyIsSpace sep = true) (hmsg : msg.all (fun ch => ch ≠ '\n') = true) :
    matchUserRest (user ++ ':' :: sep :: msg) = some (user, msg) := by
  have h := takeWhile_append_stop pyIsWord user ':' (sep :: msg) hw (by decide)
  have hmsg' : ∀ x ∈ msg, ¬ x = '\n' := by simpa using hmsg
  have hmsg2 : '\n' ∉ msg := fun hc => hmsg' _ hc rfl
  unfold matchUserRest
  rw [h.1, h.2]
  simp [hne, hsep, hmsg2]

theorem matchLogLine_construct (h1 h2 m1 m2 s1 s2 w1 w2 : Char) (rest : List Char)
    (hd1 : h1.isDigit = true) (hd2 : h2.isDigit = true)
    (hd3 : m1.isDigit = true) (hd4 : m2.isDigit = true)
    (hd5 : s1.isDigit = true) (hd6 : s2.isDigit = true)
    (hw1 : pyIsSpace w1 = true) (hw2 : pyIsSpace w2 = true) :
    matchLogLine ('[' :: h1 :: h2 :: ':' :: m1 :: m2 :: ':' :: s1 :: s2 :: ']' :: w1 :: w2 :: rest)
      = (matchUserRest rest).map
          (fun p => ([h1, h2, ':', m1, m2, ':', s1, s2], p.1, p.2)) := by
  simp only [matchLogLine]
  rw [if_pos ⟨trivial, trivial, trivial, trivial, hd1, hd2, hd3, hd4, hd5, hd6, hw1, hw2⟩]
  cases matchUserRest rest with
  | none => rfl
  | some p => rfl

theorem strptime_hms_eval (h1 h2 m1 m2 s1 s2 : Char)
    (hd1 : h1.isDigit = true) (hd2 : h2.isDigit = true)
    (hd3 : m1.isDigit = true) (hd4 : m2.isDigit = true)
    (hd5 : s1.isDigit = true) (hd6 : s2.isDigit = true) :
    strptime_hms [h1, h2, ':', m1, m2, ':', s1, s2] =
      (if 10 * digitVal h1 + digitVal h2 ≤ 23 ∧ 10 * digitVal m1 + digitVal m2 ≤ 59
          ∧ 10 * digitVal s1 + digitVal s2 ≤ 59 then
        some ⟨10 * digitVal h1 + digitVal h2, 10 * digitVal m1 + digitVal m2,
          10 * digitVal s1 + digitVal s2⟩
      else none) := by
  simp only [strptime_hms]
  rw [if_pos ⟨trivial, trivial, hd1, hd2, hd3, hd4, hd5, hd6⟩]

theorem parse_line_message_construct (date : Date) (h1 h2 m1 m2 s1 s2 w1 w2 sep : Char)
    (user msg : List Char)
    (hd1 : h1.isDigit = true) (hd2 : h2.isDigit = true)
    (hd3 : m1.isDigit = true) (hd4 : m2.isDigit = true)
    (hd5 : s1.isDigit = true) (hd6 : s2.isDigit = true)
    (hw1 : pyIsSpace w1 = true) (hw2 : pyIsSpace w2 = true) (hsep : pyIsSpace sep = true)
    (hne : user ≠ []) (huw : ∀ c ∈ user, pyIsWord c = true)
    (hmsg : msg.all (fun ch => ch ≠ '\n') = true)
    (hh : 10 * digitVal h1 + digitVal h2 ≤ 23)
    (hm : 10 * digitVal m1 + digitVal m2 ≤ 59)
    (hs : 10 * digitVal s1 + digitVal s2 ≤ 59) :
    _parse_line date ('[' :: h1 :: h2 :: ':' :: m1 :: m2 :: ':' :: s1 :: s2 :: ']'
        :: w1 :: w2 :: (user ++ ':' :: sep :: msg)) =
      .message ⟨⟨date, ⟨10 * digitVal h1 + digitVal h2, 10 * digitVal m1 + digitVal m2,
        10 * digitVal s1 + digitVal s2⟩⟩, ⟨user⟩, ⟨msg⟩⟩ := by
  have e1 := matchLogLine_construct h1 h2 m1 m2 s1 s2 w1 w2 (user ++ ':' :: sep :: msg)
    hd1 hd2 hd3 hd4 hd5 hd6 hw1 hw2
  have e2 := matchUserRest_construct user sep msg hne huw hsep hmsg
  have e3 := strptime_hms_eval h1 h2 m1 m2 s1 s2 hd1 hd2 hd3 hd4 hd5 hd6
  unfold _parse_line
  rw [e1, e2]
  simp only [Option.map_some']
  rw [e3, if_pos ⟨hh, hm, hs⟩]

/-! ## Inversion lemmas for the log-line pattern -/

theorem matchUserRest_some (rest user msg : List Char)
    (h : matchUserRest rest = some (user, msg)) :
    user ≠ [] ∧ (∀ c ∈ user, pyIsWord c = true)
      ∧ (∃ sep, pyIsSpace sep = true ∧ rest = user ++ ':' :: sep :: msg)
      ∧ msg.all (fun ch => ch ≠ '\n') = true := by
  unfold matchUserRest at h
  split at h
  case h_1 c sep text heq =>
    split at h
    case isTrue hc =>
      obtain ⟨hc1, hc2, hc3, hc4⟩ := hc
      injection h with h
      rw [Prod.mk.injEq] at h
      obtain ⟨hu, hm⟩ := h
      subst hu
      subst hm
      subst hc1
      have hsplit : rest = List.takeWhile pyIsWord rest ++ ':' :: sep :: text := by
        conv_lhs => rw [← List.takeWhile_append_dropWhile pyIsWord rest]
        rw [heq]
      exact ⟨hc2, fun c hc => List.mem_takeWhile_imp hc, ⟨sep, hc3, hsplit⟩, hc4⟩
    case isFalse => exact Option.noConfusion h
  case h_2 => exact Option.noConfusion h

theorem matchLogLine_some (line ts user msg : List Char)
    (h : matchLogLine line = some (ts, user, msg)) :
    user ≠ [] ∧ (∀ c ∈ user, pyIsWord c = true) ∧ (∃ pre, line = pre ++ msg)
      ∧ msg.all (fun ch => ch ≠ '\n') = true := by
  unfold matchLogLine at h
  split at h
  case h_1 lb a1 a2 c1 b1 b2 c2 e1 e2 rb w1 w2 rest =>
    split at h
    case isTrue hcond =>
      cases hmur : matchUserRest rest with
      | none => rw [hmur] at h; exact Option.noConfusion h
      | some p =>
        obtain ⟨u, m⟩ := p
        obtain ⟨hne, hw, ⟨sep, hsep, hrest⟩, hnl⟩ := matchUserRest_some rest u m hmur
        rw [hmur] at h
        injection h with h
        rw [Prod.mk.injEq] at h
        obtain ⟨hts, h2⟩ := h
        rw [Prod.mk.injEq] at h2
        obtain ⟨hu, hm⟩ := h2
        subst hu
        subst hm
        refine ⟨hne, hw,
          ⟨lb :: a1 :: a2 :: c1 :: b1 :: b2 :: c2 :: e1 :: e2 :: rb :: w1 :: w2
            :: (u ++ [':', sep]), ?_⟩, hnl⟩
        simp [hrest]
    case isFalse => exact Option.noConfusion h
  case h_2 => exact Option.noConfusion h

theorem parse_line_message_inv (date : Date) (line : List Char) (r : ChatRecord)
    (h : _parse_line date line = .message r) :
    ∃ ts user msg, matchLogLine line = some (ts, user, msg)
      ∧ r.user = ⟨user⟩ ∧ r.msg = ⟨msg⟩ := by
  unfold _parse_line at h
  split at h
  case h_1 timeStr u m heq =>
    split at h
    case h_1 t heq2 =>
      injection h with h
      exact ⟨timeStr, u, m, heq, by rw [← h], by rw [← h]⟩
    case h_2 => exact LineOutcome.noConfusion h
  case h_2 heq =>
    split at h
    · exact LineOutcome.noConfusion h
    · split at h
      · exact LineOutcome.noConfusion h
      · exact LineOutcome.noConfusion h

/-! ## The announcement pattern on timestamp-shaped lines -/

theorem matchAnnouncement_hms (h1 h2 m1 m2 s1 s2 c : Char) (rest : List Char)
    (hd1 : h1.isDigit = true) (hd2 : h2.isDigit = true)
    (hd3 : m1.isDigit = true) (hd4 : m2.isDigit = true)
    (hd5 : s1.isDigit = true) (hd6 : s2.isDigit = true) :
    matchAnnouncement ('[' :: h1 :: h2 :: ':' :: m1 :: m2 :: ':' :: s1 :: s2 :: ']'
        :: ' ' :: c :: rest)
      = (pyIsWord c && rest.all (fun ch => ch ≠ '\n')) := by
  have hu : ∀ ch ∈ [h1, h2, ':', m1, m2, ':', s1, s2], (ch = ':' || ch.isDigit) = true := by
    intro ch hch
    simp only [List.mem_cons, List.not_mem_nil, or_false] at hch
    rcases hch with rfl | rfl | rfl | rfl | rfl | rfl | rfl | rfl
    · simp [hd1]
    · simp [hd2]
    · decide
    · simp [hd3]
    · simp [hd4]
    · decide
    · simp [hd5]
    · simp [hd6]
  have hstop := takeWhile_append_stop (fun ch => ch = ':' || ch.isDigit)
    [h1, h2, ':', m1, m2, ':', s1, s2] ']' (' ' :: c :: rest) hu (by decide)
  have e : h1 :: h2 :: ':' :: m1 :: m2 :: ':' :: s1 :: s2 :: ']' :: ' ' :: c :: rest
      = [h1, h2, ':', m1, m2, ':', s1, s2] ++ ']' :: ' ' :: c :: rest := by simp
  simp only [matchAnnouncement]
  rw [e, hstop.1, hstop.2]
  simp [pyIsSpace]

theorem matchLogLine_single_space_none (h1 h2 m1 m2 s1 s2 c : Char) (rest : List Char)
    (hc : pyIsSpace c = false) :
    matchLogLine ('[' :: h1 :: h2 :: ':' :: m1 :: m2 :: ':' :: s1 :: s2 :: ']'
        :: ' ' :: c :: rest) = none := by
  simp [matchLogLine, hc]

theorem parse_line_single_space (date : Date) (h1 h2 m1 m2 s1 s2 c : Char) (rest : List Char)
    (hd1 : h1.isDigit = true) (hd2 : h2.isDigit = true)
    (hd3 : m1.isDigit = true) (hd4 : m2.isDigit = true)
    (hd5 : s1.isDigit = true) (hd6 : s2.isDigit = true) :
    (pyIsWord c = true → rest.all (fun ch => ch ≠ '\n') = true →
      _parse_line date ('[' :: h1 :: h2 :: ':' :: m1 :: m2 :: ':' :: s1 :: s2 :: ']'
        :: ' ' :: c :: rest) = .nonMessage)
    ∧ (pyIsWord c = false → pyIsSpace c = false →
      _parse_line date ('[' :: h1 :: h2 :: ':' :: m1 :: m2 :: ':' :: s1 :: s2 :: ']'
        :: ' ' :: c :: rest) = .parseError) := by
  constructor
  · intro hw hnl
    have hcs : pyIsSpace c = false := pyIsWord_not_space c hw
    have hnl1 : ∀ x ∈ rest, ¬ x = '\n' := by simpa using hnl
    have hnl2 : '\n' ∉ rest := fun hc => hnl1 _ hc rfl
    unfold _parse_line
    rw [matchLogLine_single_space_none h1 h2 m1 m2 s1 s2 c rest hcs,
      matchAnnouncement_hms h1 h2 m1 m2 s1 s2 c rest hd1 hd2 hd3 hd4 hd5 hd6]
    simp [hw, hnl2]
  · intro hw hcs
    unfold _parse_line
    rw [matchLogLine_single_space_none h1 h2 m1 m2 s1 s2 c rest hcs,
      matchAnnouncement_hms h1 h2 m1 m2 s1 s2 c rest hd1 hd2 hd3 hd4 hd5 hd6]
    simp [hw, matchComment]

/-! ## parse_log_rows: line order, skipping, and the uncaught ValueError -/

theorem parse_log_rows_ok (date : Date) (ls : List (List Char)) (rs : List ChatRecord)
    (h : parse_log_rows date ls = .ok rs) : rs = ls.filterMap (lineRecord date) := by
  induction ls generalizing rs with
  | nil =>
    unfold parse_log_rows at h
    injection h with h
    simp [← h]
  | cons l ls ih =>
    unfold parse_log_rows at h
    rw [List.filterMap_cons]
    cases ho : _parse_line date (rstrip l) with
    | message r =>
      rw [ho] at h
      cases hr : parse_log_rows date ls with
      | ok rs2 =>
        rw [hr] at h
        injection h with h
        have hfl : lineRecord date l = some r := by rw [lineRecord, ho]
        rw [hfl, ← h, ih rs2 hr]
      | error e => rw [hr] at h; exact Except.noConfusion h
    | nonMessage =>
      rw [ho] at h
      have hfl : lineRecord date l = none := by rw [lineRecord, ho]
      rw [hfl]
      exact ih rs h
    | parseError =>
      rw [ho] at h
      have hfl : lineRecord date l = none := by rw [lineRecord, ho]
      rw [hfl]
      exact ih rs h
    | valueError => rw [ho] at h; exact Except.noConfusion h

theorem parse_log_rows_abort (date : Date) (pre post : List (List Char)) (bad : List Char)
    (hpre : ∀ l ∈ pre, _parse_line date (rstrip l) ≠ .valueError)
    (hbad : _parse_line date (rstrip bad) = .valueError) :
    parse_log_rows date (pre ++ bad :: post) = .error .valueError := by
  induction pre with
  | nil =>
    rw [List.nil_append]
    unfold parse_log_rows
    rw [hbad]
  | cons l ls ih =>
    have hl := hpre l (List.mem_cons_self l ls)
    have ihh := ih (fun x hx => hpre x (List.mem_cons_of_mem l hx))
    rw [List.cons_append]
    unfold parse_log_rows
    cases ho : _parse_line date (rstrip l) with
    | message r => rw [ihh]
    | nonMessage => exact ihh
    | parseError => exact ihh
    | valueError => exact absurd ho hl

/-! ## parse_from_dir_frames: accumulation, skipping, propagation -/

theorem parse_from_dir_frames_ok (fs : List FileEntry) (frames out : List (List ChatRecord))
    (h : parse_from_dir_frames fs frames = .ok out) :
    out = frames ++ fs.filterMap fileFrame := by
  induction fs generalizing frames with
  | nil =>
    unfold parse_from_dir_frames at h
    injection h with h
    simp [← h]
  | cons f fs ih =>
    unfold parse_from_dir_frames at h
    rw [List.filterMap_cons]
    cases hp : parse_log f with
    | ok df =>
      rw [hp] at h
      have hff : fileFrame f = some df := by rw [fileFrame, hp]
      rw [hff, ih (frames ++ [df]) h]
      simp
    | error e =>
      have hff : fileFrame f = none := by rw [fileFrame, hp]
      rw [hff]
      cases e with
      | fileNameFormat =>
        rw [hp] at h
        exact ih frames h
      | valueError => rw [hp] at h; exact Except.noConfusion h
      | pandasEmptyConcat => rw [hp] at h; exact Except.noConfusion h

theorem parse_from_dir_frames_rejected (fs : List FileEntry) (frames : List (List ChatRecord))
    (h : ∀ f ∈ fs, parse_log f = .error .fileNameFormat) :
    parse_from_dir_frames fs frames = .ok frames := by
  induction fs with
  | nil => rfl
  | cons f fs ih =>
    unfold parse_from_dir_frames
    rw [h f (List.mem_cons_self f fs)]
    exact ih (fun x hx => h x (List.mem_cons_of_mem f hx))

theorem parse_from_dir_ok (files : List FileEntry) (rs : List ChatRecord)
    (h : parse_from_dir files = .ok rs) :
    rs = ((sortFiles files).filterMap fileFrame).flatten := by
  unfold parse_from_dir at h
  split at h
  case h_1 frames heq =>
    by_cases he : frames.isEmpty
    · rw [if_pos he] at h; exact Except.noConfusion h
    · rw [if_neg he] at h
      injection h with h
      rw [← h, parse_from_dir_frames_ok _ _ _ heq]
      simp
  case h_2 e heq => exact Except.noConfusion h

/-! ## Digit printing round trip -/

theorem pad2_digits (c1 c2 : Char) (h1 : c1.isDigit = true) (h2 : c2.isDigit = true) :
    pad2 (10 * digitVal c1 + digitVal c2) = [c1, c2] := by
  obtain ⟨b1, b2⟩ := char_digit_bounds c1 h1
  obtain ⟨b3, b4⟩ := char_digit_bounds c2 h2
  unfold pad2
  have e1 : (10 * digitVal c1 + digitVal c2) / 10 % 10 = digitVal c1 := by
    unfold digitVal; omega
  have e2 : (10 * digitVal c1 + digitVal c2) % 10 = digitVal c2 := by
    unfold digitVal; omega
  rw [e1, e2, char_ofNat_digit c1 h1, char_ofNat_digit c2 h2]

theorem pad4_digits (c1 c2 c3 c4 : Char) (h1 : c1.isDigit = true) (h2 : c2.isDigit = true)
    (h3 : c3.isDigit = true) (h4 : c4.isDigit = true) :
    pad4 (1000 * digitVal c1 + 100 * digitVal c2 + 10 * digitVal c3 + digitVal c4)
      = [c1, c2, c3, c4] := by
  obtain ⟨b1, b2⟩ := char_digit_bounds c1 h1
  obtain ⟨b3, b4⟩ := char_digit_bounds c2 h2
  obtain ⟨b5, b6⟩ := char_digit_bounds c3 h3
  obtain ⟨b7, b8⟩ := char_digit_bounds c4 h4
  unfold pad4
  have e1 : (1000 * digitVal c1 + 100 * digitVal c2 + 10 * digitVal c3 + digitVal c4)
      / 1000 % 10 = digitVal c1 := by unfold digitVal; omega
  have e2 : (1000 * digitVal c1 + 100 * digitVal c2 + 10 * digitVal c3 + digitVal c4)
      / 100 % 10 = digitVal c2 := by unfold digitVal; omega
  have e3 : (1000 * digitVal c1 + 100 * digitVal c2 + 10 * digitVal c3 + digitVal c4)
      / 10 % 10 = digitVal c3 := by unfold digitVal; omega
  have e4 : (1000 * digitVal c1 + 100 * digitVal c2 + 10 * digitVal c3 + digitVal c4)
      % 10 = digitVal c4 := by unfold digitVal; omega
  rw [e1, e2, e3, e4, char_ofNat_digit c1 h1, char_ofNat_digit c2 h2,
    char_ofNat_digit c3 h3, char_ofNat_digit c4 h4]

/-! ## File-name pattern and date parsing -/

theorem strptime_ymd_eval (y1 y2 y3 y4 m1 m2 d1 d2 : Char)
    (q1 : y1.isDigit = true) (q2 : y2.isDigit = true) (q3 : y3.isDigit = true)
    (q4 : y4.isDigit = true) (q5 : m1.isDigit = true) (q6 : m2.isDigit = true)
    (q7 : d1.isDigit = true) (q8 : d2.isDigit = true) :
    strptime_ymd [y1, y2, y3, y4, '-', m1, m2, '-', d1, d2] =
      (if 1 ≤ 1000 * digitVal y1 + 100 * digitVal y2 + 10 * digitVal y3 + digitVal y4
          ∧ 1 ≤ 10 * digitVal m1 + digitVal m2 ∧ 10 * digitVal m1 + digitVal m2 ≤ 12
          ∧ 1 ≤ 10 * digitVal d1 + digitVal d2
          ∧ 10 * digitVal d1 + digitVal d2 ≤ daysInMonth
              (1000 * digitVal y1 + 100 * digitVal y2 + 10 * digitVal y3 + digitVal y4)
              (10 * digitVal m1 + digitVal m2) then
        some ⟨1000 * digitVal y1 + 100 * digitVal y2 + 10 * digitVal y3 + digitVal y4,
          10 * digitVal m1 + digitVal m2, 10 * digitVal d1 + digitVal d2⟩
      else none) := by
  simp only [strptime_ymd]
  rw [if_pos ⟨trivial, trivial, q1, q2, q3, q4, q5, q6, q7, q8⟩]

theorem strptime_ymd_some (g : List Char) (d : Date) (h : strptime_ymd g = some d) :
    date_iso d = g ∧ validDate d := by
  unfold strptime_ymd at h
  split at h
  case h_1 y1 y2 y3 y4 c1 m1 m2 c2 d1 d2 =>
    split at h
    case isTrue hc =>
      obtain ⟨e1, e2, q1, q2, q3, q4, q5, q6, q7, q8⟩ := hc
      subst e1
      subst e2
      dsimp only at h
      split at h
      case isTrue hr =>
        injection h with h
        subst h
        refine ⟨?_, hr⟩
        simp [date_iso, pad4_digits y1 y2 y3 y4 q1 q2 q3 q4,
          pad2_digits m1 m2 q5 q6, pad2_digits d1 d2 q7 q8]
      case isFalse => exact Option.noConfusion h
    case isFalse => exact Option.noConfusion h
  case h_2 => exact Option.noConfusion h

theorem matchFileName_construct (stem : List Char) (y1 y2 y3 y4 m1 m2 d1 d2 : Char)
    (hne : stem ≠ []) (hnl : stem.all (fun ch => ch ≠ '\n') = true)
    (q1 : y1.isDigit = true) (q2 : y2.isDigit = true) (q3 : y3.isDigit = true)
    (q4 : y4.isDigit = true) (q5 : m1.isDigit = true) (q6 : m2.isDigit = true)
    (q7 : d1.isDigit = true) (q8 : d2.isDigit = true) :
    matchFileName (stem ++ '-' :: y1 :: y2 :: y3 :: y4 :: '-' :: m1 :: m2 :: '-' :: d1 :: d2
        :: '.' :: 'l' :: 'o' :: 'g' :: [])
      = some (stem, [y1, y2, y3, y4, '-', m1, m2, '-', d1, d2]) := by
  have hpos : 0 < stem.length := List.length_pos.mpr hne
  have e0 : '-' :: y1 :: y2 :: y3 :: y4 :: '-' :: m1 :: m2 :: '-' :: d1 :: d2
      :: '.' :: 'l' :: 'o' :: 'g' :: ([] : List Char)
      = ['-', y1, y2, y3, y4, '-', m1, m2, '-', d1, d2, '.', 'l', 'o', 'g'] := rfl
  rw [e0]
  have hlen : (stem ++ ['-', y1, y2, y3, y4, '-', m1, m2, '-', d1, d2, '.', 'l', 'o', 'g']).length
      = stem.length + 15 := by simp
  have hsub : (stem ++ ['-', y1, y2, y3, y4, '-', m1, m2, '-', d1, d2, '.', 'l',
      'o', 'g']).length - 15 = stem.length := by rw [hlen]; omega
  unfold matchFileName
  rw [if_pos (by rw [hlen]; omega)]
  rw [hsub]
  rw [show ['-', y1, y2, y3, y4, '-', m1, m2, '-', d1, d2, '.', 'l', 'o', 'g']
      = List.cons '-' [y1, y2, y3, y4, '-', m1, m2, '-', d1, d2, '.', 'l', 'o', 'g'] from rfl]
  rw [List.take_left, List.drop_left]
  have hnl1 : ∀ x ∈ stem, ¬ x = '\n' := by simpa using hnl
  have hnl2 : '\n' ∉ stem := fun hc => hnl1 _ hc rfl
  simp [q1, q2, q3, q4, q5, q6, q7, q8, hnl2]

theorem matchFileName_some (name stem ds : List Char)
    (h : matchFileName name = some (stem, ds)) :
    name = stem ++ '-' :: (ds ++ ['.', 'l', 'o', 'g']) ∧ stem ≠ [] := by
  unfold matchFileName at h
  split at h
  case isTrue hlen =>
    dsimp only at h
    split at h
    case h_1 dash y1 y2 y3 y4 dd1 m1 m2 dd2 d1 d2 dot el oh ge heq =>
      split at h
      case isTrue hc =>
        obtain ⟨p1, p2, p3, p4, p5, p6, p7, q1, q2, q3, q4, q5, q6, q7, q8, hnl⟩ := hc
        injection h with h
        rw [Prod.mk.injEq] at h
        obtain ⟨hstem, hds⟩ := h
        subst p1
        subst p2
        subst p3
        subst p4
        subst p5
        subst p6
        subst p7
        constructor
        · conv_lhs => rw [← List.take_append_drop (name.length - 15) name]
          rw [hstem, heq, ← hds]
          simp
        · rw [← hstem]
          have hl : (name.take (name.length - 15)).length = name.length - 15 := by
            rw [List.length_take]
            omega
          intro hcontra
          rw [hcontra] at hl
          simp at hl
          omega
      case isFalse => exact Option.noConfusion h
    case h_2 => exact Option.noConfusion h
  case isFalse => exact Option.noConfusion h

/-- _file_name_components succeeds only on names of the well-formed shape,
and the date it returns prints back to exactly the digits of the name. -/
theorem file_name_components_ok (name : String) (chan : String) (d : Date)
    (h : _file_name_components name = .ok (chan, d)) :
    name.data = chan.data ++ '-' :: (date_iso d ++ ['.', 'l', 'o', 'g'])
      ∧ validDate d := by
  unfold _file_name_components at h
  split at h
  case h_1 => exact Except.noConfusion h
  case h_2 stem ds heq =>
    split at h
    case h_1 => exact Except.noConfusion h
    case h_2 dd heq2 =>
      injection h with h
      rw [Prod.mk.injEq] at h
      obtain ⟨hc, hd⟩ := h
      subst hd
      obtain ⟨hiso, hvalid⟩ := strptime_ymd_some ds dd heq2
      obtain ⟨hshape, _⟩ := matchFileName_some name.data stem ds heq
      refine ⟨?_, hvalid⟩
      rw [hshape, ← hc, hiso]

/-! ## The lexicographic file order -/

theorem listCharLe_total (a b : List Char) : listCharLe a b = true ∨ listCharLe b a = true := by
  induction a generalizing b with
  | nil => left; rfl
  | cons x xs ih =>
    cases b with
    | nil => right; rfl
    | cons y ys =>
      rcases lt_trichotomy x y with hxy | hxy | hxy
      · left
        unfold listCharLe
        rw [if_pos hxy]
      · subst hxy
        rcases ih ys with h | h
        · left
          unfold listCharLe
          rw [if_neg (lt_irrefl x), if_neg (lt_irrefl x)]
          exact h
        · right
          unfold listCharLe
          rw [if_neg (lt_irrefl x), if_neg (lt_irrefl x)]
          exact h
      · right
        unfold listCharLe
        rw [if_pos hxy]

theorem listCharLe_trans (a b c : List Char) (hab : listCharLe a b = true)
    (hbc : listCharLe b c = true) : listCharLe a c = true := by
  induction a generalizing b c with
  | nil => rfl
  | cons x xs ih =>
    cases b with
    | nil => exact absurd hab (by simp [listCharLe])
    | cons y ys =>
      cases c with
      | nil => exact absurd hbc (by simp [listCharLe])
      | cons z zs =>
        unfold listCharLe at hab hbc ⊢
        rcases lt_trichotomy x y with h1 | h1 | h1
        · rcases lt_trichotomy y z with h2 | h2 | h2
          · rw [if_pos (lt_trans h1 h2)]
          · subst h2
            rw [if_pos h1]
          · rw [if_neg (lt_asymm h2), if_pos h2] at hbc
            exact Bool.noConfusion hbc
        · subst h1
          rcases lt_trichotomy x z with h2 | h2 | h2
          · rw [if_pos h2]
          · subst h2
            rw [if_neg (lt_irrefl x), if_neg (lt_irrefl x)] at hab hbc ⊢
            exact ih ys zs hab hbc
          · rw [if_neg (lt_asymm h2), if_pos h2] at hbc
            exact Bool.noConfusion hbc
        · rw [if_neg (lt_asymm h1), if_pos h1] at hab
          exact Bool.noConfusion hab

instance : IsTotal FileEntry fileLe :=
  ⟨fun a b => listCharLe_total a.1.data b.1.data⟩

instance : IsTrans FileEntry fileLe :=
  ⟨fun a b c hab hbc => listCharLe_trans a.1.data b.1.data c.1.data hab hbc⟩

theorem sortFiles_sorted (files : List FileEntry) :
    List.Sorted fileLe (sortFiles files) :=
  List.sorted_insertionSort fileLe files

theorem sortFiles_perm (files : List FileEntry) : (sortFiles files).Perm files :=
  List.perm_insertionSort fileLe files

/-! ## Record-level consequences of a message classification -/

theorem lineRecord_some (date : Date) (l : List Char) (r : ChatRecord)
    (h : lineRecord date l = some r) : _parse_line date (rstrip l) = .message r := by
  unfold lineRecord at h
  split at h
  case h_1 r2 heq =>
    injection h with h
    rw [← h]
    exact heq
  case h_2 => exact Option.noConfusion h

theorem fileFrame_some (f : FileEntry) (df : List ChatRecord) (h : fileFrame f = some df) :
    parse_log f = .ok df := by
  unfold fileFrame at h
  split at h
  case h_1 df2 heq =>
    injection h with h
    rw [← h]
    exact heq
  case h_2 => exact Option.noConfusion h

theorem parse_log_mem_message (file : String × List (List Char)) (rs : List ChatRecord)
    (h : parse_log file = .ok rs) (r : ChatRecord) (hr : r ∈ rs) :
    ∃ date l, _parse_line date (rstrip l) = .message r := by
  unfold parse_log at h
  split at h
  case h_1 => exact Except.noConfusion h
  case h_2 chan date heq =>
    rw [parse_log_rows_ok date file.2 rs h] at hr
    obtain ⟨l, hl, hrec⟩ := List.mem_filterMap.mp hr
    exact ⟨date, l, lineRecord_some date l r hrec⟩

theorem parse_line_message_user (date : Date) (l : List Char) (r : ChatRecord)
    (h : _parse_line date l = .message r) :
    r.user ≠ "" ∧ r.user.data.all pyIsWord = true := by
  obtain ⟨ts, user, msg, hml, hu, hm⟩ := parse_line_message_inv date l r h
  obtain ⟨hne, hw, _, _⟩ := matchLogLine_some l ts user msg hml
  constructor
  · rw [hu]
    intro hc
    exact hne (congrArg String.data hc)
  · rw [hu]
    simp only [List.all_eq_true, decide_eq_true_eq]
    exact fun c hc => hw c hc

theorem parse_line_message_msg_suffix (date : Date) (l : List Char) (r : ChatRecord)
    (h : _parse_line date l = .message r) :
    ∃ pre, l = pre ++ r.msg.data := by
  obtain ⟨ts, user, msg, hml, hu, hm⟩ := parse_line_message_inv date l r h
  obtain ⟨_, _, ⟨pre, hpre⟩, _⟩ := matchLogLine_some l ts user msg hml
  refine ⟨pre, ?_⟩
  rw [hm]
  exact hpre

/-! ## Claim theorems -/

/-- C1, counterexample to the claim as stated: a file whose second line is
the scenario-B line "[03:61:34]  user23: lol" (minute 61) makes parse_log
abort with the uncaught ValueError instead of skipping the line; the
well-formed first line's record is not returned. -/
theorem C1_claim_counterexample :
    parse_log ("chan-2023-05-13.log",
      ["[03:25:34]  user23: lol".data, "[03:61:34]  user23: lol".data])
      = .error .valueError
    ∧ ∀ rs : List ChatRecord,
        parse_log ("chan-2023-05-13.log",
          ["[03:25:34]  user23: lol".data, "[03:61:34]  user23: lol".data])
          ≠ .ok rs := by
  refine ⟨by decide, ?_⟩
  intro rs hc
  rw [(by decide : parse_log ("chan-2023-05-13.log",
      ["[03:25:34]  user23: lol".data, "[03:61:34]  user23: lol".data])
      = Except.error PyError.valueError)] at hc
  exact Except.noConfusion hc

/-- C1, amended: a line whose rstripped text matches the message shape but
carries an out-of-range time makes _parse_line raise ValueError, which
parse_log does not catch: the file parse aborts at that line, and the
records of any well-formed lines are lost; only ParseLineException and
NonMessageLineException lines are skipped. -/
theorem C1_invalid_timestamp_aborts (name chan : String) (date : Date)
    (pre post : List (List Char)) (bad : List Char)
    (hname : _file_name_components name = .ok (chan, date))
    (hpre : ∀ l ∈ pre, _parse_line date (rstrip l) ≠ .valueError)
    (hbad : _parse_line date (rstrip bad) = .valueError) :
    parse_log (name, pre ++ bad :: post) = .error .valueError := by
  unfold parse_log
  rw [hname]
  exact parse_log_rows_abort date pre post bad hpre hbad

/-- C1 witness: the scenario-B line after a comment line aborts the file,
losing the record of the well-formed line that follows it. -/
theorem C1_invalid_timestamp_aborts_witness :
    parse_log ("chan-2023-05-13.log",
      ["# start".data, "[03:61:34]  user23: lol".data, "[03:25:34]  user23: lol".data])
      = .error .valueError :=
  C1_invalid_timestamp_aborts "chan-2023-05-13.log" "chan" ⟨2023, 5, 13⟩
    ["# start".data] ["[03:25:34]  user23: lol".data] "[03:61:34]  user23: lol".data
    (by decide) (by decide) (by decide)

/-- C2, counterexample to the claim as stated: on an empty directory the
accumulated frame list is empty and pandas.concat raises ValueError, so
parse_from_dir raises instead of returning an empty sequence. -/
theorem C2_claim_counterexample :
    parse_from_dir [] = .error .pandasEmptyConcat := by decide

/-- C2, amended: for an empty input directory, and likewise when every
file is rejected by the file-name check, parse_from_dir raises the
ValueError of pandas.concat on an empty list of frames rather than
returning an empty record sequence. -/
theorem C2_empty_or_all_rejected_error (files : List FileEntry)
    (h : ∀ f ∈ files, _file_name_components f.1 = .error .fileNameFormat) :
    parse_from_dir files = .error .pandasEmptyConcat := by
  have hall : ∀ f ∈ sortFiles files, parse_log f = .error .fileNameFormat := by
    intro f hf
    have hm : f ∈ files := (sortFiles_perm files).mem_iff.mp hf
    unfold parse_log
    rw [h f hm]
  unfold parse_from_dir
  rw [parse_from_dir_frames_rejected (sortFiles files) [] hall]
  rfl

/-- C2 witness: a directory whose only file is rejected by the file-name
check still ends in the empty-concat ValueError. -/
theorem C2_empty_or_all_rejected_error_witness :
    parse_from_dir [("readme.txt", ["some text".data])] = .error .pandasEmptyConcat :=
  C2_empty_or_all_rejected_error [("readme.txt", ["some text".data])] (by decide)

/-- C3, counterexample to the claim as stated: the line "[03:25:34] !x"
has a bracketed timestamp followed by exactly one space, yet it is
classified Malformed (ParseLineException), not NonMessage, because the
announcement pattern demands a word character after the single space. -/
theorem C3_claim_counterexample :
    _parse_line ⟨2023, 5, 13⟩ "[03:25:34] !x".data = .parseError := by decide

/-- C3, amended: for a line with a bracketed HH:MM:SS timestamp followed by
exactly one space, classification yields NonMessage when the character
after the space is a word character (and the rest of the line has no
newline); when that character is neither a word character nor whitespace
the line is classified Malformed. -/
theorem C3_single_space_classification (date : Date) (h1 h2 m1 m2 s1 s2 c : Char)
    (rest : List Char)
    (hd1 : h1.isDigit = true) (hd2 : h2.isDigit = true)
    (hd3 : m1.isDigit = true) (hd4 : m2.isDigit = true)
    (hd5 : s1.isDigit = true) (hd6 : s2.isDigit = true) :
    (pyIsWord c = true → rest.all (fun ch => ch ≠ '\n') = true →
      _parse_line date ('[' :: h1 :: h2 :: ':' :: m1 :: m2 :: ':' :: s1 :: s2 :: ']'
        :: ' ' :: c :: rest) = .nonMessage)
    ∧ (pyIsWord c = false → pyIsSpace c = false →
      _parse_line date ('[' :: h1 :: h2 :: ':' :: m1 :: m2 :: ':' :: s1 :: s2 :: ']'
        :: ' ' :: c :: rest) = .parseError) :=
  parse_line_single_space date h1 h2 m1 m2 s1 s2 c rest hd1 hd2 hd3 hd4 hd5 hd6

/-- C3 witness: scenario C, the announcement line "[17:20:11] Announcement"
is classified NonMessage. -/
theorem C3_single_space_classification_witness :
    _parse_line ⟨2023, 5, 13⟩ ('[' :: '1' :: '7' :: ':' :: '2' :: '0' :: ':' :: '1' :: '1'
      :: ']' :: ' ' :: 'A' :: "nnouncement".data) = .nonMessage :=
  (C3_single_space_classification ⟨2023, 5, 13⟩ '1' '7' '2' '0' '1' '1' 'A'
    "nnouncement".data (by decide) (by decide) (by decide) (by decide) (by decide)
    (by decide)).1 (by decide) (by decide)

/-- C4: a file name matching the structural pattern whose digit groups do
not form a valid calendar date fails with the strptime ValueError, a
failure distinct from the structural FileNameFormatException, and yields
no (channel, date) pair. -/
theorem C4_invalid_date_distinct_failure (stem : List Char)
    (y1 y2 y3 y4 m1 m2 d1 d2 : Char)
    (hne : stem ≠ []) (hnl : stem.all (fun ch => ch ≠ '\n') = true)
    (q1 : y1.isDigit = true) (q2 : y2.isDigit = true) (q3 : y3.isDigit = true)
    (q4 : y4.isDigit = true) (q5 : m1.isDigit = true) (q6 : m2.isDigit = true)
    (q7 : d1.isDigit = true) (q8 : d2.isDigit = true)
    (hbad : ¬ (1 ≤ 1000 * digitVal y1 + 100 * digitVal y2 + 10 * digitVal y3 + digitVal y4
      ∧ 1 ≤ 10 * digitVal m1 + digitVal m2 ∧ 10 * digitVal m1 + digitVal m2 ≤ 12
      ∧ 1 ≤ 10 * digitVal d1 + digitVal d2
      ∧ 10 * digitVal d1 + digitVal d2 ≤ daysInMonth
          (1000 * digitVal y1 + 100 * digitVal y2 + 10 * digitVal y3 + digitVal y4)
          (10 * digitVal m1 + digitVal m2))) :
    _file_name_components ⟨stem ++ '-' :: y1 :: y2 :: y3 :: y4 :: '-' :: m1 :: m2 :: '-'
        :: d1 :: d2 :: '.' :: 'l' :: 'o' :: 'g' :: []⟩ = .error .valueError
    ∧ _file_name_components ⟨stem ++ '-' :: y1 :: y2 :: y3 :: y4 :: '-' :: m1 :: m2 :: '-'
        :: d1 :: d2 :: '.' :: 'l' :: 'o' :: 'g' :: []⟩ ≠ .error .fileNameFormat
    ∧ ∀ p : String × Date, _file_name_components ⟨stem ++ '-' :: y1 :: y2 :: y3 :: y4
        :: '-' :: m1 :: m2 :: '-' :: d1 :: d2 :: '.' :: 'l' :: 'o' :: 'g' :: []⟩
        ≠ .ok p := by
  have he : _file_name_components ⟨stem ++ '-' :: y1 :: y2 :: y3 :: y4 :: '-' :: m1 :: m2
      :: '-' :: d1 :: d2 :: '.' :: 'l' :: 'o' :: 'g' :: []⟩ = .error .valueError := by
    unfold _file_name_components
    have e : (⟨stem ++ '-' :: y1 :: y2 :: y3 :: y4 :: '-' :: m1 :: m2 :: '-' :: d1 :: d2
        :: '.' :: 'l' :: 'o' :: 'g' :: []⟩ : String).data
        = stem ++ '-' :: y1 :: y2 :: y3 :: y4 :: '-' :: m1 :: m2 :: '-' :: d1 :: d2
          :: '.' :: 'l' :: 'o' :: 'g' :: [] := rfl
    rw [e, matchFileName_construct stem y1 y2 y3 y4 m1 m2 d1 d2 hne hnl q1 q2 q3 q4 q5 q6 q7 q8]
    simp only [strptime_ymd_eval y1 y2 y3 y4 m1 m2 d1 d2 q1 q2 q3 q4 q5 q6 q7 q8]
    rw [if_neg hbad]
  refine ⟨he, ?_, ?_⟩
  · rw [he]
    intro hc
    injection hc with hc
    exact PyError.noConfusion hc
  · intro p
    rw [he]
    intro hc
    exact Except.noConfusion hc

/-- C4 witness: "chan-2023-13-01.log" (month 13) fails with the ValueError,
not the FileNameFormatException, and returns no pair. -/
theorem C4_invalid_date_distinct_failure_witness :
    _file_name_components ⟨"chan".data ++ '-' :: '2' :: '0' :: '2' :: '3' :: '-' :: '1'
        :: '3' :: '-' :: '0' :: '1' :: '.' :: 'l' :: 'o' :: 'g' :: []⟩
      = .error .valueError := by
  have h := C4_invalid_date_distinct_failure "chan".data '2' '0' '2' '3' '1' '3' '0' '1'
    (by decide) (by decide) (by decide) (by decide) (by decide) (by decide) (by decide)
    (by decide) (by decide) (by decide) (by decide)
  exact h.1

/-- C5: every valid message line "[HH:MM:SS]  user: text" (two literal
spaces after the bracket, one after the colon) with an in-range 24-hour
time parses to exactly the record combining the reference date with the
line's time, the username, and the message text verbatim. -/
theorem C5_valid_message_line (date : Date) (h1 h2 m1 m2 s1 s2 : Char)
    (user msg : List Char)
    (hd1 : h1.isDigit = true) (hd2 : h2.isDigit = true)
    (hd3 : m1.isDigit = true) (hd4 : m2.isDigit = true)
    (hd5 : s1.isDigit = true) (hd6 : s2.isDigit = true)
    (hne : user ≠ []) (huw : ∀ c ∈ user, pyIsWord c = true)
    (hmsg : msg.all (fun ch => ch ≠ '\n') = true)
    (hh : 10 * digitVal h1 + digitVal h2 ≤ 23)
    (hm : 10 * digitVal m1 + digitVal m2 ≤ 59)
    (hs : 10 * digitVal s1 + digitVal s2 ≤ 59) :
    _parse_line date ('[' :: h1 :: h2 :: ':' :: m1 :: m2 :: ':' :: s1 :: s2 :: ']'
        :: ' ' :: ' ' :: (user ++ ':' :: ' ' :: msg)) =
      .message ⟨⟨date, ⟨10 * digitVal h1 + digitVal h2, 10 * digitVal m1 + digitVal m2,
        10 * digitVal s1 + digitVal s2⟩⟩, ⟨user⟩, ⟨msg⟩⟩ :=
  parse_line_message_construct date h1 h2 m1 m2 s1 s2 ' ' ' ' ' ' user msg
    hd1 hd2 hd3 hd4 hd5 hd6 (by decide) (by decide) (by decide) hne huw hmsg hh hm hs

/-- C5 witness: scenario A, "[03:25:34]  user23: lol" with date 2023-05-13
yields the record (2023-05-13T03:25:34, user23, lol). -/
theorem C5_valid_message_line_witness :
    _parse_line ⟨2023, 5, 13⟩ ('[' :: '0' :: '3' :: ':' :: '2' :: '5' :: ':' :: '3' :: '4'
        :: ']' :: ' ' :: ' ' :: ("user23".data ++ ':' :: ' ' :: "lol".data)) =
      .message ⟨⟨⟨2023, 5, 13⟩, ⟨3, 25, 34⟩⟩, "user23", "lol"⟩ := by
  have h := C5_valid_message_line ⟨2023, 5, 13⟩ '0' '3' '2' '5' '3' '4'
    "user23".data "lol".data (by decide) (by decide) (by decide) (by decide) (by decide)
    (by decide) (by decide) (by decide) (by decide) (by decide) (by decide) (by decide)
  exact h

/-- C6: round trip of the file-name parser.  A name built as
channel-YYYY-MM-DD.log from a valid date parses to exactly that channel
and date; the parsed date prints back to the original digits; every
successful parse comes from a name of exactly this well-formed shape (so
every malformed name fails); and the last well-formed date suffix anchors
the split when the channel itself contains one. -/
theorem C6_file_name_round_trip (stem : List Char) (y1 y2 y3 y4 m1 m2 d1 d2 : Char)
    (hne : stem ≠ []) (hnl : stem.all (fun ch => ch ≠ '\n') = true)
    (q1 : y1.isDigit = true) (q2 : y2.isDigit = true) (q3 : y3.isDigit = true)
    (q4 : y4.isDigit = true) (q5 : m1.isDigit = true) (q6 : m2.isDigit = true)
    (q7 : d1.isDigit = true) (q8 : d2.isDigit = true)
    (hvalid : 1 ≤ 1000 * digitVal y1 + 100 * digitVal y2 + 10 * digitVal y3 + digitVal y4
      ∧ 1 ≤ 10 * digitVal m1 + digitVal m2 ∧ 10 * digitVal m1 + digitVal m2 ≤ 12
      ∧ 1 ≤ 10 * digitVal d1 + digitVal d2
      ∧ 10 * digitVal d1 + digitVal d2 ≤ daysInMonth
          (1000 * digitVal y1 + 100 * digitVal y2 + 10 * digitVal y3 + digitVal y4)
          (10 * digitVal m1 + digitVal m2)) :
    _file_name_components ⟨stem ++ '-' :: y1 :: y2 :: y3 :: y4 :: '-' :: m1 :: m2 :: '-'
        :: d1 :: d2 :: '.' :: 'l' :: 'o' :: 'g' :: []⟩
      = .ok (⟨stem⟩, ⟨1000 * digitVal y1 + 100 * digitVal y2 + 10 * digitVal y3 + digitVal y4,
          10 * digitVal m1 + digitVal m2, 10 * digitVal d1 + digitVal d2⟩)
    ∧ date_iso ⟨1000 * digitVal y1 + 100 * digitVal y2 + 10 * digitVal y3 + digitVal y4,
        10 * digitVal m1 + digitVal m2, 10 * digitVal d1 + digitVal d2⟩
      = [y1, y2, y3, y4, '-', m1, m2, '-', d1, d2]
    ∧ (∀ (name chan : String) (d : Date), _file_name_components name = .ok (chan, d) →
        name.data = chan.data ++ '-' :: (date_iso d ++ ['.', 'l', 'o', 'g']) ∧ validDate d)
    ∧ _file_name_components "a-2023-01-01-2023-02-02.log"
      = .ok ("a-2023-01-01", ⟨2023, 2, 2⟩) := by
  refine ⟨?_, ?_, file_name_components_ok, by decide⟩
  · unfold _file_name_components
    have e : (⟨stem ++ '-' :: y1 :: y2 :: y3 :: y4 :: '-' :: m1 :: m2 :: '-' :: d1 :: d2
        :: '.' :: 'l' :: 'o' :: 'g' :: []⟩ : String).data
        = stem ++ '-' :: y1 :: y2 :: y3 :: y4 :: '-' :: m1 :: m2 :: '-' :: d1 :: d2
          :: '.' :: 'l' :: 'o' :: 'g' :: [] := rfl
    rw [e, matchFileName_construct stem y1 y2 y3 y4 m1 m2 d1 d2 hne hnl q1 q2 q3 q4 q5 q6 q7 q8]
    simp only [strptime_ymd_eval y1 y2 y3 y4 m1 m2 d1 d2 q1 q2 q3 q4 q5 q6 q7 q8]
    rw [if_pos hvalid]
  · simp [date_iso, pad4_digits y1 y2 y3 y4 q1 q2 q3 q4, pad2_digits m1 m2 q5 q6,
      pad2_digits d1 d2 q7 q8]

/-- C6 witness: "summit1g-2023-05-11.log" parses to (summit1g, 2023-05-11)
and the date prints back to the original digits. -/
theorem C6_file_name_round_trip_witness :
    _file_name_components ⟨"summit1g".data ++ '-' :: '2' :: '0' :: '2' :: '3' :: '-' :: '0'
        :: '5' :: '-' :: '1' :: '1' :: '.' :: 'l' :: 'o' :: 'g' :: []⟩
      = .ok ("summit1g", ⟨2023, 5, 11⟩)
    ∧ date_iso ⟨2023, 5, 11⟩ = ['2', '0', '2', '3', '-', '0', '5', '-', '1', '1'] := by
  have h := C6_file_name_round_trip "summit1g".data '2' '0' '2' '3' '0' '5' '1' '1'
    (by decide) (by decide) (by decide) (by decide) (by decide) (by decide) (by decide)
    (by decide) (by decide) (by decide) (by decide)
  exact ⟨h.1, h.2.1⟩

/-- C7: whenever parse_from_dir returns a sequence, that sequence is the
concatenation, over the lexicographically sorted file list, of each
accepted file's records (rejected names contribute nothing), and each
file's records are its lines' message records in original line order; so
records of distinct files are never interleaved. -/
theorem C7_aggregate_order (files : List FileEntry) (rs : List ChatRecord)
    (h : parse_from_dir files = .ok rs) :
    rs = ((sortFiles files).filterMap fileFrame).flatten
    ∧ List.Sorted fileLe (sortFiles files)
    ∧ (sortFiles files).Perm files
    ∧ (∀ (f : FileEntry) (df : List ChatRecord), parse_log f = .ok df →
        ∃ chan date, _file_name_components f.1 = .ok (chan, date)
          ∧ df = f.2.filterMap (lineRecord date)) := by
  refine ⟨parse_from_dir_ok files rs h, sortFiles_sorted files, sortFiles_perm files, ?_⟩
  intro f df hp
  unfold parse_log at hp
  split at hp
  case h_1 => exact Except.noConfusion hp
  case h_2 chan date heq =>
    exact ⟨chan, date, heq, parse_log_rows_ok date f.2 df hp⟩

/-- C7 witness: two conforming files listed out of order plus a rejected
file; the result is the two files' records in sorted file-name order. -/
theorem C7_aggregate_order_witness :
    parse_from_dir
      [("b-2023-01-02.log", ["[01:00:00]  u: x".data]),
       ("readme.txt", ["junk".data]),
       ("a-2023-01-01.log", ["[02:00:00]  v: y".data])]
      = .ok [⟨⟨⟨2023, 1, 1⟩, ⟨2, 0, 0⟩⟩, "v", "y"⟩, ⟨⟨⟨2023, 1, 2⟩, ⟨1, 0, 0⟩⟩, "u", "x"⟩]
    ∧ ([⟨⟨⟨2023, 1, 1⟩, ⟨2, 0, 0⟩⟩, "v", "y"⟩, ⟨⟨⟨2023, 1, 2⟩, ⟨1, 0, 0⟩⟩, "u", "x"⟩]
        : List ChatRecord)
      = ((sortFiles
          [("b-2023-01-02.log", ["[01:00:00]  u: x".data]),
           ("readme.txt", ["junk".data]),
           ("a-2023-01-01.log", ["[02:00:00]  v: y".data])]).filterMap fileFrame).flatten := by
  refine ⟨by decide, ?_⟩
  have h := C7_aggregate_order
    [("b-2023-01-02.log", ["[01:00:00]  u: x".data]),
     ("readme.txt", ["junk".data]),
     ("a-2023-01-01.log", ["[02:00:00]  v: y".data])]
    [⟨⟨⟨2023, 1, 1⟩, ⟨2, 0, 0⟩⟩, "v", "y"⟩, ⟨⟨⟨2023, 1, 2⟩, ⟨1, 0, 0⟩⟩, "u", "x"⟩]
    (by decide)
  exact h.1

/-- C8: the compiled message pattern uses the whitespace class, not the
literal space: any two whitespace characters after the closing bracket and
any single whitespace character after the colon still give a Message with
the same extracted fields. -/
theorem C8_whitespace_class_message (date : Date) (h1 h2 m1 m2 s1 s2 w1 w2 sep : Char)
    (user msg : List Char)
    (hd1 : h1.isDigit = true) (hd2 : h2.isDigit = true)
    (hd3 : m1.isDigit = true) (hd4 : m2.isDigit = true)
    (hd5 : s1.isDigit = true) (hd6 : s2.isDigit = true)
    (hw1 : pyIsSpace w1 = true) (hw2 : pyIsSpace w2 = true) (hsep : pyIsSpace sep = true)
    (hne : user ≠ []) (huw : ∀ c ∈ user, pyIsWord c = true)
    (hmsg : msg.all (fun ch => ch ≠ '\n') = true)
    (hh : 10 * digitVal h1 + digitVal h2 ≤ 23)
    (hm : 10 * digitVal m1 + digitVal m2 ≤ 59)
    (hs : 10 * digitVal s1 + digitVal s2 ≤ 59) :
    _parse_line date ('[' :: h1 :: h2 :: ':' :: m1 :: m2 :: ':' :: s1 :: s2 :: ']'
        :: w1 :: w2 :: (user ++ ':' :: sep :: msg)) =
      .message ⟨⟨date, ⟨10 * digitVal h1 + digitVal h2, 10 * digitVal m1 + digitVal m2,
        10 * digitVal s1 + digitVal s2⟩⟩, ⟨user⟩, ⟨msg⟩⟩ :=
  parse_line_message_construct date h1 h2 m1 m2 s1 s2 w1 w2 sep user msg
    hd1 hd2 hd3 hd4 hd5 hd6 hw1 hw2 hsep hne huw hmsg hh hm hs

/-- C8 witness: two tabs after the bracket and a tab after the colon still
produce the message record. -/
theorem C8_whitespace_class_message_witness :
    _parse_line ⟨2023, 5, 13⟩ ('[' :: '0' :: '3' :: ':' :: '2' :: '5' :: ':' :: '3' :: '4'
        :: ']' :: '\t' :: '\t' :: ("user23".data ++ ':' :: '\t' :: "lol".data)) =
      .message ⟨⟨⟨2023, 5, 13⟩, ⟨3, 25, 34⟩⟩, "user23", "lol"⟩ := by
  have h := C8_whitespace_class_message ⟨2023, 5, 13⟩ '0' '3' '2' '5' '3' '4' '\t' '\t' '\t'
    "user23".data "lol".data (by decide) (by decide) (by decide) (by decide) (by decide)
    (by decide) (by decide) (by decide) (by decide) (by decide) (by decide) (by decide)
    (by decide) (by decide) (by decide)
  exact h

/-- C9: parse_log rstrips each raw line before classification, so the
message field of every emitted record never ends in a whitespace
character; and rstrip removes every trailing whitespace run, not only the
line terminator. -/
theorem C9_msg_no_trailing_whitespace (file : String × List (List Char))
    (rs : List ChatRecord) (h : parse_log file = .ok rs) :
    (∀ r ∈ rs, ∀ c : Char, r.msg.data.getLast? = some c → pyIsSpace c = false)
    ∧ (∀ l ws : List Char, (∀ c ∈ ws, pyIsSpace c = true) → rstrip (l ++ ws) = rstrip l) := by
  refine ⟨?_, fun l ws hws => rstrip_append_ws l ws hws⟩
  intro r hr c hlast
  obtain ⟨date, l, hmsg⟩ := parse_log_mem_message file rs h r hr
  obtain ⟨pre, hpre⟩ := parse_line_message_msg_suffix date (rstrip l) r hmsg
  have hlast2 : (rstrip l).getLast? = some c := by
    rw [hpre, List.getLast?_append, hlast]
    rfl
  exact rstrip_getLast_not_space l c hlast2

/-- C9 witness: a message line with trailing spaces and a tab yields a
record whose message has the trailing whitespace stripped. -/
theorem C9_msg_no_trailing_whitespace_witness :
    parse_log ("chan-2023-05-13.log", ["[03:25:34]  user23: lol  \t".data])
      = .ok [⟨⟨⟨2023, 5, 13⟩, ⟨3, 25, 34⟩⟩, "user23", "lol"⟩]
    ∧ ∀ r ∈ ([⟨⟨⟨2023, 5, 13⟩, ⟨3, 25, 34⟩⟩, "user23", "lol"⟩] : List ChatRecord),
        ∀ c : Char, r.msg.data.getLast? = some c → pyIsSpace c = false := by
  refine ⟨by decide, ?_⟩
  have h := C9_msg_no_trailing_whitespace ("chan-2023-05-13.log",
    ["[03:25:34]  user23: lol  \t".data])
    [⟨⟨⟨2023, 5, 13⟩, ⟨3, 25, 34⟩⟩, "user23", "lol"⟩] (by decide)
  exact h.1

/-- C10: every record produced by _parse_line, parse_log, or
parse_from_dir has a non-empty username made only of word characters
(letters, digits, underscore) — in particular no whitespace. -/
theorem C10_user_word_invariant :
    (∀ (date : Date) (line : List Char) (r : ChatRecord),
      _parse_line date line = .message r →
        r.user ≠ "" ∧ r.user.data.all pyIsWord = true)
    ∧ (∀ (file : String × List (List Char)) (rs : List ChatRecord),
        parse_log file = .ok rs →
          ∀ r ∈ rs, r.user ≠ "" ∧ r.user.data.all pyIsWord = true)
    ∧ (∀ (files : List FileEntry) (rs : List ChatRecord),
        parse_from_dir files = .ok rs →
          ∀ r ∈ rs, r.user ≠ "" ∧ r.user.data.all pyIsWord = true) := by
  refine ⟨fun date line r h => parse_line_message_user date line r h, ?_, ?_⟩
  · intro file rs h r hr
    obtain ⟨date, l, hm⟩ := parse_log_mem_message file rs h r hr
    exact parse_line_message_user date _ r hm
  · intro files rs h r hr
    rw [parse_from_dir_ok files rs h] at hr
    obtain ⟨df, hdf, hrdf⟩ := List.mem_flatten.mp hr
    obtain ⟨f, hf, hff⟩ := List.mem_filterMap.mp hdf
    obtain ⟨date, l, hm⟩ := parse_log_mem_message f df (fileFrame_some f df hff) r hrdf
    exact parse_line_message_user date _ r hm

/-- C10 witness: the record of scenario A has username "user23", which is
non-empty and all word characters. -/
theorem C10_user_word_invariant_witness :
    ("user23" : String) ≠ "" ∧ ("user23" : String).data.all pyIsWord = true :=
  C10_user_word_invariant.1 ⟨2023, 5, 13⟩ "[03:25:34]  user23: lol".data
    ⟨⟨⟨2023, 5, 13⟩, ⟨3, 25, 34⟩⟩, "user23", "lol"⟩ (by decide)
